import Mathlib

/-!
Verification of the enrollment and academic-record subsystem of the
university-system repository (question1_university_system).

The Python classes Course (department.py), Student and SecureStudentRecord
(student.py) are embedded shallowly:

* Python dicts (a student gradeMap) become association lists
  List (String × Option String) with Python dict semantics: insertion
  keeps order and overwrites an existing key in place, deletion removes
  the entry of the key.
* A Course roster holds student object references in Python; here it holds
  the person_id of each student.
* Python floats become rationals; round(x, 2) becomes rounding of x * 100
  to the nearest integer with ties to even (CPython round is
  round-half-to-even), divided by 100.
* print-reporting failure paths become an explicit result value
  (EnrollResult), and the raising setter of SecureStudentRecord becomes
  Except String.
-/

namespace UniSys

/-- Python dict as association list: list of the keys in insertion order. -/
def dictKeys (m : List (String × Option String)) : List String :=
  m.map Prod.fst

/-- Python dict lookup: value of the first entry with the given key. -/
def dictLookup (m : List (String × Option String)) (k : String) :
    Option (Option String) :=
  (m.find? (fun p => p.1 == k)).map Prod.snd

/-- Python dict assignment m[k] = v: overwrite in place when the key is
present, append otherwise. -/
def dictInsert (m : List (String × Option String)) (k : String)
    (v : Option String) : List (String × Option String) :=
  if m.any (fun p => p.1 == k) then
    m.map (fun p => if p.1 == k then (p.1, v) else p)
  else
    m ++ [(k, v)]

/-- Python del m[k]: remove the entry of the key (keys are unique in a
dict, so removing the first matching entry is removing the entry). -/
def dictDelete (m : List (String × Option String)) (k : String) :
    List (String × Option String) :=
  m.eraseP (fun p => p.1 == k)

/-- CPython round-half-to-even of a rational to an integer. -/
def roundHalfEven (q : ℚ) : ℤ :=
  let f := q.floor
  let r := q - f
  if r < 1/2 then f
  else if 1/2 < r then f + 1
  else if f % 2 = 0 then f else f + 1

/-- Python round(q, 2). -/
def round2 (q : ℚ) : ℚ :=
  (roundHalfEven (q * 100) : ℚ) / 100

/-- Department (department.py). Only its presence matters to the core:
Student.enroll_course takes a department argument and ignores it. The
course catalog is keyed by course_id. -/
structure Department where
  name : String
  courses : List (String × String)
  faculty : List String
deriving DecidableEq

/-- Course (department.py): enrollment limits, prerequisite set, roster. -/
structure Course where
  course_id : String
  name : String
  credits : Nat
  enrollment_limit : Nat
  prerequisites : Finset String
  students_enrolled : List String
deriving DecidableEq

/-- Course.__init__ conversion of the optional prerequisite list:
set(prerequisites) if prerequisites else set(). None and the empty list
are falsy and give the empty set. -/
def pyPrereqSet : Option (List String) → Finset String
  | none => ∅
  | some l => if l.isEmpty then ∅ else l.toFinset

/-- Course.__init__(course_id, name, credits, limit=30, prerequisites=None). -/
def mkCourse (course_id name : String) (credits limit : Nat)
    (prerequisites : Option (List String)) : Course :=
  { course_id := course_id
    name := name
    credits := credits
    enrollment_limit := limit
    prerequisites := pyPrereqSet prerequisites
    students_enrolled := [] }

/-- Student (student.py): Person fields plus major, the gradeMap
(enrolled_courses) and the cached gpa attribute. -/
structure Student where
  person_id : String
  name : String
  birth_date : String
  major : String
  enrolled_courses : List (String × Option String)
  gpa : ℚ
deriving DecidableEq

/-- Student.__init__: empty gradeMap, gpa 0.0. -/
def mkStudent (person_id name birth_date major : String) : Student :=
  { person_id := person_id
    name := name
    birth_date := birth_date
    major := major
    enrolled_courses := []
    gpa := 0 }

/-- Course.add_student: append to the roster and return True iff the
roster length is below the enrollment limit, else return False and leave
the roster unchanged. -/
def Course.add_student (c : Course) (s : Student) : Bool × Course :=
  if c.students_enrolled.length < c.enrollment_limit then
    (true, { c with students_enrolled := c.students_enrolled ++ [s.person_id] })
  else
    (false, c)

/-- Course.remove_student: remove the student from the roster if enrolled,
a no-op otherwise. -/
def Course.remove_student (c : Course) (s : Student) : Course :=
  if s.person_id ∈ c.students_enrolled then
    { c with students_enrolled := c.students_enrolled.erase s.person_id }
  else
    c

/-- Outcome reported by Student.enroll_course (printed in the source). -/
inductive EnrollResult where
  | missingPrereqs (missing : Finset String)
  | courseFull
  | success
deriving DecidableEq

/-- Student.enroll_course(course, department): prerequisite check against
the keys of enrolled_courses first, then the capacity check through
Course.add_student, then insertion of course_id -> None into the
gradeMap. The department argument is unused in the source. -/
def Student.enroll_course (s : Student) (c : Course) (_d : Department) :
    EnrollResult × Student × Course :=
  let completed := (dictKeys s.enrolled_courses).toFinset
  if ¬ c.prerequisites ⊆ completed then
    (.missingPrereqs (c.prerequisites \ completed), s, c)
  else
    match c.add_student s with
    | (true, c2) =>
        (.success,
         { s with enrolled_courses := dictInsert s.enrolled_courses c.course_id none },
         c2)
    | (false, c2) => (.courseFull, s, c2)

/-- Student.drop_course(course): when course_id is a key of the gradeMap,
remove the student from the roster and delete the key; silent no-op
otherwise. -/
def Student.drop_course (s : Student) (c : Course) : Student × Course :=
  if c.course_id ∈ dictKeys s.enrolled_courses then
    let c2 := c.remove_student s
    ({ s with enrolled_courses := dictDelete s.enrolled_courses c.course_id }, c2)
  else
    (s, c)

/-- The grade_points dict of Student.calculate_gpa, as a partial map. -/
def grade_points (g : String) : Option ℚ :=
  if g = "A" then some 4
  else if g = "B" then some 3
  else if g = "C" then some 2
  else if g = "D" then some 1
  else if g = "F" then some 0
  else none

/-- Per-entry contribution test of calculate_gpa: grade truthy (not None,
not the empty string) and present in grade_points. -/
def gradedPoints (m : List (String × Option String)) : List ℚ :=
  m.filterMap (fun p =>
    match p.2 with
    | none => none
    | some g => if g = "" then none else grade_points g)

/-- Student.calculate_gpa: sum gradePoint * 3 over counted courses, 3
credits each; 0.0 when no course counts, else round(points/credits, 2);
the result is also stored in the gpa attribute. -/
def Student.calculate_gpa (s : Student) : ℚ × Student :=
  let pts := gradedPoints s.enrolled_courses
  let total_points : ℚ := (pts.map (fun p => p * 3)).sum
  let total_credits : ℚ := 3 * pts.length
  if total_credits = 0 then
    (0, { s with gpa := 0 })
  else
    let g := round2 (total_points / total_credits)
    (g, { s with gpa := g })

/-- Student.get_academic_status: recompute the GPA, then classify by the
3.5 and 2.0 thresholds. -/
def Student.get_academic_status (s : Student) : String × Student :=
  let s2 := (s.calculate_gpa).2
  if s2.gpa ≥ 7/2 then ("Dean\x27s List", s2)
  else if s2.gpa ≥ 2 then ("Good Standing", s2)
  else ("Probation", s2)

/-- SecureStudentRecord (student.py): wrapped student, validated gpa,
fixed enrollment limit. -/
structure SecureStudentRecord where
  student : Student
  gpa : ℚ
  enrollment_limit : Nat
deriving DecidableEq

/-- SecureStudentRecord.set_gpa: commit iff 0.0 <= new_gpa <= 4.0, raise
ValueError otherwise. -/
def SecureStudentRecord.set_gpa (r : SecureStudentRecord) (new_gpa : ℚ) :
    Except String SecureStudentRecord :=
  if 0 ≤ new_gpa ∧ new_gpa ≤ 4 then
    .ok { r with gpa := new_gpa }
  else
    .error "GPA must be between 0.0 and 4.0"

/-- SecureStudentRecord.__init__(student, initial_gpa=0.0): gpa starts at
the safe default 0.0 and the initial value goes through set_gpa; the
enrollment limit is 5. -/
def mkSecureStudentRecord (student : Student) (initial_gpa : ℚ) :
    Except String SecureStudentRecord :=
  SecureStudentRecord.set_gpa
    { student := student, gpa := 0, enrollment_limit := 5 } initial_gpa

/-- SecureStudentRecord.get_gpa. -/
def SecureStudentRecord.get_gpa (r : SecureStudentRecord) : ℚ :=
  r.gpa

/-- SecureStudentRecord.can_enroll_more: enrolled-course count below the
enrollment limit. -/
def SecureStudentRecord.can_enroll_more (r : SecureStudentRecord) : Bool :=
  r.student.enrolled_courses.length < r.enrollment_limit

/-- SecureStudentRecord.get_student_name. -/
def SecureStudentRecord.get_student_name (r : SecureStudentRecord) : String :=
  r.student.name

/-- An add_student or remove_student call, for roster-operation sequences. -/
inductive RosterOp where
  | add (s : Student)
  | remove (s : Student)

/-- Apply one roster operation to a course. -/
def applyRosterOp (c : Course) : RosterOp → Course
  | .add s => (c.add_student s).2
  | .remove s => c.remove_student s

/-- Apply a sequence of roster operations to a course. -/
def applyRosterOps (c : Course) (ops : List RosterOp) : Course :=
  ops.foldl applyRosterOp c

/-- Spec-side grade-to-point mapping, following the specification words:
A=4.0, B=3.0, C=2.0, D=1.0, F=0.0; None or an unknown letter is excluded.
Stated independently of the source for the refinement comparison. -/
def specGradePoint (o : Option String) : Option ℚ :=
  if o = some "A" then some 4
  else if o = some "B" then some 3
  else if o = some "C" then some 2
  else if o = some "D" then some 1
  else if o = some "F" then some 0
  else none

/-- Spec-side computeGpa, following the specification words: each counted
course contributes gradePoint * 3 to the numerator and 3 to the
denominator; 0.0 when no course qualifies, else round(points/credits, 2). -/
def specComputeGpa (m : List (String × Option String)) : ℚ :=
  let pts := m.filterMap (fun p => specGradePoint p.2)
  if pts.length = 0 then 0
  else round2 ((pts.map (fun p => p * 3)).sum / (3 * (pts.length : ℚ)))

/-! Helper lemmas about the embedding. -/

/-- Rat.floor agrees with the floor of the ordered field ℚ. -/
theorem ratFloor_eq_floor (q : ℚ) : q.floor = ⌊q⌋ := by
  rw [Rat.floor_def, Rat.floor_def']

/-- roundHalfEven, written with the ambient floor. -/
theorem roundHalfEven_eq (q : ℚ) :
    roundHalfEven q =
      if q - ⌊q⌋ < 1/2 then ⌊q⌋
      else if 1/2 < q - ⌊q⌋ then ⌊q⌋ + 1
      else if ⌊q⌋ % 2 = 0 then ⌊q⌋ else ⌊q⌋ + 1 := by
  simp only [roundHalfEven, ratFloor_eq_floor]

/-- roundHalfEven fixes the integers. -/
theorem roundHalfEven_intCast (n : ℤ) : roundHalfEven (n : ℚ) = n := by
  rw [roundHalfEven_eq]
  rw [Int.floor_intCast]
  norm_num

/-- roundHalfEven moves its argument by at most one half, upper part. -/
theorem roundHalfEven_le (q : ℚ) : (roundHalfEven q : ℚ) ≤ q + 1/2 := by
  have hf : (⌊q⌋ : ℚ) ≤ q := Int.floor_le q
  rw [roundHalfEven_eq]
  split
  next h => linarith
  next h =>
    split
    next h2 => push_cast; linarith
    next h2 =>
      have h3 : q - ⌊q⌋ ≤ 1/2 := not_lt.mp h2
      split <;> push_cast <;> linarith

/-- roundHalfEven moves its argument by at most one half, lower part. -/
theorem le_roundHalfEven (q : ℚ) : q - 1/2 ≤ (roundHalfEven q : ℚ) := by
  have hf : (⌊q⌋ : ℚ) ≤ q := Int.floor_le q
  have hf2 : q < (⌊q⌋ : ℚ) + 1 := Int.lt_floor_add_one q
  rw [roundHalfEven_eq]
  split
  next h => linarith
  next h =>
    have h3 : 1/2 ≤ q - ⌊q⌋ := not_lt.mp h
    split
    next h2 => push_cast; linarith
    next h2 =>
      split <;> push_cast <;> linarith

/-- round2 of a nonnegative rational is nonnegative. -/
theorem round2_nonneg {q : ℚ} (h : 0 ≤ q) : 0 ≤ round2 q := by
  have h1 : (-1/2 : ℚ) ≤ (roundHalfEven (q * 100) : ℚ) := by
    have := le_roundHalfEven (q * 100)
    linarith
  have h2 : (0 : ℤ) ≤ roundHalfEven (q * 100) := by
    by_contra hc
    have h3 : roundHalfEven (q * 100) ≤ -1 := by omega
    have h4 : (roundHalfEven (q * 100) : ℚ) ≤ -1 := by exact_mod_cast h3
    linarith
  rw [round2]
  apply div_nonneg _ (by norm_num)
  exact_mod_cast h2

/-- round2 of a rational at most 4 stays at most 4. -/
theorem round2_le_four {q : ℚ} (h : q ≤ 4) : round2 q ≤ 4 := by
  have h1 : (roundHalfEven (q * 100) : ℚ) ≤ 400 + 1/2 := by
    have := roundHalfEven_le (q * 100)
    linarith
  have h2 : roundHalfEven (q * 100) ≤ 400 := by
    by_contra hc
    have h3 : (401 : ℤ) ≤ roundHalfEven (q * 100) := by omega
    have h4 : (401 : ℚ) ≤ (roundHalfEven (q * 100) : ℚ) := by exact_mod_cast h3
    linarith
  rw [round2]
  rw [div_le_iff₀ (by norm_num : (0:ℚ) < 100)]
  have : (roundHalfEven (q * 100) : ℚ) ≤ (400 : ℚ) := by exact_mod_cast h2
  linarith

/-- round2 is idempotent. -/
theorem round2_round2 (q : ℚ) : round2 (round2 q) = round2 q := by
  rw [round2, round2, div_mul_cancel₀ _ (by norm_num : (100:ℚ) ≠ 0),
    roundHalfEven_intCast]

/-- Keys of a cons. -/
theorem dictKeys_cons (p : String × Option String)
    (t : List (String × Option String)) :
    dictKeys (p :: t) = p.1 :: dictKeys t := rfl

/-- Lookup on a cons. -/
theorem dictLookup_cons (p : String × Option String)
    (t : List (String × Option String)) (k : String) :
    dictLookup (p :: t) k = if p.1 == k then some p.2 else dictLookup t k := by
  by_cases h : p.1 = k <;> simp [dictLookup, List.find?_cons, h]

/-- The membership probe of dictInsert is membership in the keys. -/
theorem any_key_iff_mem (m : List (String × Option String)) (k : String) :
    m.any (fun p => p.1 == k) = true ↔ k ∈ dictKeys m := by
  rw [List.any_eq_true]
  constructor
  · rintro ⟨p, hp, hpk⟩
    exact (beq_iff_eq.mp hpk) ▸ List.mem_map_of_mem Prod.fst hp
  · intro h
    obtain ⟨p, hp, hpk⟩ := List.mem_map.mp h
    exact ⟨p, hp, beq_iff_eq.mpr hpk⟩

/-- Overwriting map of dictInsert: the key now maps to the value. -/
theorem dictLookup_map_overwrite_self (m : List (String × Option String))
    (k : String) (v : Option String)
    (hany : m.any (fun p => p.1 == k) = true) :
    dictLookup (m.map (fun p => if p.1 == k then (p.1, v) else p)) k = some v := by
  induction m with
  | nil => simp at hany
  | cons p t ih =>
    rw [List.map_cons, dictLookup_cons]
    have hfst : (if p.1 == k then (p.1, v) else p).1 = p.1 := by split <;> rfl
    rw [hfst]
    cases hb : (p.1 == k) with
    | true => simp
    | false =>
      rw [if_neg (by simp : ¬(false = true))]
      apply ih
      rw [List.any_cons, hb, Bool.false_or] at hany
      exact hany

/-- Assignment makes the key map to the value. -/
theorem dictLookup_dictInsert_self (m : List (String × Option String))
    (k : String) (v : Option String) :
    dictLookup (dictInsert m k v) k = some v := by
  unfold dictInsert
  by_cases hany : m.any (fun p => p.1 == k) = true
  · rw [if_pos hany]
    exact dictLookup_map_overwrite_self m k v hany
  · rw [if_neg hany]
    unfold dictLookup
    rw [List.find?_append]
    have hnone : List.find? (fun p : String × Option String => p.1 == k) m = none := by
      rw [List.find?_eq_none]
      intro x hx hxk
      exact hany (List.any_eq_true.mpr ⟨x, hx, hxk⟩)
    rw [hnone]
    simp [List.find?]

/-- Assignment to a present key leaves the key list unchanged. -/
theorem dictKeys_dictInsert_mem (m : List (String × Option String))
    (k : String) (v : Option String) (h : k ∈ dictKeys m) :
    dictKeys (dictInsert m k v) = dictKeys m := by
  unfold dictInsert
  rw [if_pos ((any_key_iff_mem m k).mpr h)]
  unfold dictKeys
  rw [List.map_map]
  congr 1
  funext p
  show (if p.1 == k then (p.1, v) else p).1 = p.1
  split <;> rfl

/-- Assignment to an absent key appends the key. -/
theorem dictKeys_dictInsert_not_mem (m : List (String × Option String))
    (k : String) (v : Option String) (h : k ∉ dictKeys m) :
    dictKeys (dictInsert m k v) = dictKeys m ++ [k] := by
  unfold dictInsert
  rw [if_neg (fun hc => h ((any_key_iff_mem m k).mp hc))]
  unfold dictKeys
  rw [List.map_append]
  rfl

/-- Assignment does not touch other keys. -/
theorem dictLookup_dictInsert_ne (m : List (String × Option String))
    (k k2 : String) (v : Option String) (h : k2 ≠ k) :
    dictLookup (dictInsert m k v) k2 = dictLookup m k2 := by
  unfold dictInsert
  by_cases hany : m.any (fun p => p.1 == k) = true
  · rw [if_pos hany]
    clear hany
    induction m with
    | nil => rfl
    | cons p t ih =>
      rw [List.map_cons, dictLookup_cons, dictLookup_cons]
      have hfst : (if p.1 == k then (p.1, v) else p).1 = p.1 := by split <;> rfl
      rw [hfst]
      by_cases hpk2 : p.1 = k2
      · have hb : (p.1 == k2) = true := beq_iff_eq.mpr hpk2
        have hpk : (p.1 == k) = false := by
          rw [beq_eq_false_iff_ne, hpk2]
          exact h
        rw [if_pos hb, if_pos hb, if_neg (by simp [hpk])]
      · have hb : (p.1 == k2) = false := beq_eq_false_iff_ne.mpr hpk2
        rw [if_neg (by simp [hb]), if_neg (by simp [hb])]
        exact ih
  · rw [if_neg hany]
    unfold dictLookup
    rw [List.find?_append]
    have hlast : List.find? (fun p : String × Option String => p.1 == k2) [(k, v)] = none := by
      rw [List.find?_eq_none]
      intro x hx
      rw [List.mem_singleton] at hx
      subst hx
      exact fun hc => h (beq_iff_eq.mp hc).symm
    rw [hlast]
    rw [Option.or_none]

/-- Deletion does not touch other keys. -/
theorem dictLookup_dictDelete_ne (m : List (String × Option String))
    (k k2 : String) (h : k2 ≠ k) :
    dictLookup (dictDelete m k) k2 = dictLookup m k2 := by
  induction m with
  | nil => rfl
  | cons p t ih =>
    unfold dictDelete at ih ⊢
    by_cases hp : (p.1 == k) = true
    · rw [List.eraseP_cons_of_pos (p := fun q : String × Option String => q.1 == k) hp]
      rw [dictLookup_cons]
      have hb : (p.1 == k2) = false :=
        beq_eq_false_iff_ne.mpr (fun hc => h (hc ▸ beq_iff_eq.mp hp))
      rw [hb]
      simp
    · rw [List.eraseP_cons_of_neg (p := fun q : String × Option String => q.1 == k) hp]
      rw [dictLookup_cons, dictLookup_cons, ih]

/-- Deletion of a key removes it when the dict has no duplicate keys. -/
theorem not_mem_dictKeys_dictDelete (m : List (String × Option String))
    (k : String) (h : (dictKeys m).Nodup) :
    k ∉ dictKeys (dictDelete m k) := by
  induction m with
  | nil => simp [dictDelete, dictKeys]
  | cons p t ih =>
    rw [dictKeys_cons, List.nodup_cons] at h
    unfold dictDelete at ih ⊢
    by_cases hp : (p.1 == k) = true
    · rw [List.eraseP_cons_of_pos (p := fun q : String × Option String => q.1 == k) hp]
      exact (beq_iff_eq.mp hp) ▸ h.1
    · rw [List.eraseP_cons_of_neg (p := fun q : String × Option String => q.1 == k) hp]
      rw [dictKeys_cons, List.mem_cons]
      rintro (hc | hc)
      · exact (beq_eq_false_iff_ne.mp (by simpa using hp)) hc.symm
      · exact ih h.2 hc

/-- Bounds on a sum of rationals each between 0 and 4. -/
theorem sum_bounds_of_mem (l : List ℚ) (h : ∀ x ∈ l, 0 ≤ x ∧ x ≤ 4) :
    0 ≤ l.sum ∧ l.sum ≤ 4 * l.length := by
  induction l with
  | nil => simp
  | cons a t ih =>
    have ha := h a (List.mem_cons_self a t)
    have ht := ih (fun x hx => h x (List.mem_cons_of_mem a hx))
    rw [List.sum_cons, List.length_cons]
    push_cast
    constructor
    · linarith [ha.1, ht.1]
    · linarith [ha.2, ht.2]

/-- Every counted grade point lies between 0 and 4. -/
theorem gradedPoints_mem_bounds (m : List (String × Option String)) :
    ∀ x ∈ gradedPoints m, 0 ≤ x ∧ x ≤ 4 := by
  intro x hx
  obtain ⟨p, _, hp⟩ := List.mem_filterMap.mp hx
  rcases p with ⟨k, g⟩
  cases g with
  | none => simp at hp
  | some s =>
    simp only [gradedPoints] at hp
    by_cases h0 : s = ""
    · simp [h0] at hp
    · rw [if_neg h0] at hp
      unfold grade_points at hp
      split_ifs at hp <;> (injection hp with hv; rw [← hv]; norm_num)

/-- Failed prerequisite check: report the missing set, no mutation. -/
theorem enroll_course_missing (s : Student) (c : Course) (d : Department)
    (h : ¬ c.prerequisites ⊆ (dictKeys s.enrolled_courses).toFinset) :
    s.enroll_course c d =
      (.missingPrereqs (c.prerequisites \ (dictKeys s.enrolled_courses).toFinset), s, c) := by
  simp only [Student.enroll_course]
  rw [if_pos h]

/-- Capacity failure: course full, no mutation. -/
theorem enroll_course_full (s : Student) (c : Course) (d : Department)
    (hsub : c.prerequisites ⊆ (dictKeys s.enrolled_courses).toFinset)
    (hfull : ¬ c.students_enrolled.length < c.enrollment_limit) :
    s.enroll_course c d = (.courseFull, s, c) := by
  simp only [Student.enroll_course, Course.add_student]
  rw [if_neg (not_not_intro hsub), if_neg hfull]

/-- Successful enrollment: gradeMap insert and roster append. -/
theorem enroll_course_success (s : Student) (c : Course) (d : Department)
    (hsub : c.prerequisites ⊆ (dictKeys s.enrolled_courses).toFinset)
    (hroom : c.students_enrolled.length < c.enrollment_limit) :
    s.enroll_course c d =
      (.success,
       { s with enrolled_courses := dictInsert s.enrolled_courses c.course_id none },
       { c with students_enrolled := c.students_enrolled ++ [s.person_id] }) := by
  simp only [Student.enroll_course, Course.add_student]
  rw [if_neg (not_not_intro hsub), if_pos hroom]

/-- C1: enroll_course checks prerequisites first and reports the missing
set prerequisiteSet - completed without mutation; only then the capacity
check through add_student, reporting course full without mutation; on
success the course identifier maps to None in the gradeMap and the
student is appended to the roster. -/
theorem claim_C1 (s : Student) (c : Course) (d : Department) :
    (¬ c.prerequisites ⊆ (dictKeys s.enrolled_courses).toFinset →
      s.enroll_course c d =
        (.missingPrereqs (c.prerequisites \ (dictKeys s.enrolled_courses).toFinset), s, c)) ∧
    (c.prerequisites ⊆ (dictKeys s.enrolled_courses).toFinset →
      ¬ c.students_enrolled.length < c.enrollment_limit →
      s.enroll_course c d = (.courseFull, s, c)) ∧
    (c.prerequisites ⊆ (dictKeys s.enrolled_courses).toFinset →
      c.students_enrolled.length < c.enrollment_limit →
      s.enroll_course c d =
        (.success,
         { s with enrolled_courses := dictInsert s.enrolled_courses c.course_id none },
         { c with students_enrolled := c.students_enrolled ++ [s.person_id] }) ∧
      dictLookup (s.enroll_course c d).2.1.enrolled_courses c.course_id = some none) := by
  refine ⟨enroll_course_missing s c d, enroll_course_full s c d, ?_⟩
  intro hsub hroom
  refine ⟨enroll_course_success s c d hsub hroom, ?_⟩
  rw [enroll_course_success s c d hsub hroom]
  exact dictLookup_dictInsert_self _ _ _

/-- C1 witness: a student with an empty gradeMap is turned away from a
course requiring CS101, with the missing set reported and no mutation. -/
theorem claim_C1_witness :
    (mkStudent "S1" "Ada" "2000-01-01" "CS").enroll_course
        (mkCourse "CS201" "Programming II" 3 30 (some ["CS101"])) ⟨"CS", [], []⟩ =
      (.missingPrereqs
        ((mkCourse "CS201" "Programming II" 3 30 (some ["CS101"])).prerequisites \
          (dictKeys (mkStudent "S1" "Ada" "2000-01-01" "CS").enrolled_courses).toFinset),
       mkStudent "S1" "Ada" "2000-01-01" "CS",
       mkCourse "CS201" "Programming II" 3 30 (some ["CS101"])) :=
  (claim_C1 (mkStudent "S1" "Ada" "2000-01-01" "CS")
    (mkCourse "CS201" "Programming II" 3 30 (some ["CS101"])) ⟨"CS", [], []⟩).1 (by decide)

/-- One roster operation preserves the capacity invariant and the limit. -/
theorem applyRosterOp_inv (c : Course) (op : RosterOp)
    (h : c.students_enrolled.length ≤ c.enrollment_limit) :
    (applyRosterOp c op).students_enrolled.length ≤ (applyRosterOp c op).enrollment_limit ∧
    (applyRosterOp c op).enrollment_limit = c.enrollment_limit := by
  cases op with
  | add s =>
    simp only [applyRosterOp, Course.add_student]
    by_cases hc : c.students_enrolled.length < c.enrollment_limit
    · rw [if_pos hc]
      refine ⟨?_, rfl⟩
      rw [List.length_append]
      simpa using hc
    · rw [if_neg hc]
      exact ⟨h, rfl⟩
  | remove s =>
    simp only [applyRosterOp, Course.remove_student]
    by_cases hm : s.person_id ∈ c.students_enrolled
    · rw [if_pos hm]
      refine ⟨?_, rfl⟩
      exact le_trans (List.erase_sublist _ _).length_le h
    · rw [if_neg hm]
      exact ⟨h, rfl⟩

/-- A sequence of roster operations preserves the capacity invariant. -/
theorem applyRosterOps_inv (ops : List RosterOp) (c : Course)
    (h : c.students_enrolled.length ≤ c.enrollment_limit) :
    (applyRosterOps c ops).students_enrolled.length ≤ c.enrollment_limit ∧
    (applyRosterOps c ops).enrollment_limit = c.enrollment_limit := by
  induction ops generalizing c with
  | nil => exact ⟨h, rfl⟩
  | cons op t ih =>
    have hstep := applyRosterOp_inv c op h
    have hrest := ih (applyRosterOp c op) hstep.1
    exact ⟨hstep.2 ▸ hrest.1, hrest.2.trans hstep.2⟩

/-- C2: over any sequence of add_student and remove_student calls on a
course created with capacity C, the roster length never exceeds C;
add_student returns true and appends exactly when the length is below the
limit, and otherwise returns false leaving the course unchanged. -/
theorem claim_C2 :
    (∀ (cid nm : String) (cr limit : Nat) (pr : Option (List String)) (ops : List RosterOp),
      (applyRosterOps (mkCourse cid nm cr limit pr) ops).students_enrolled.length ≤ limit) ∧
    (∀ (c : Course) (s : Student),
      (c.add_student s).1 = true ↔ c.students_enrolled.length < c.enrollment_limit) ∧
    (∀ (c : Course) (s : Student), c.students_enrolled.length < c.enrollment_limit →
      (c.add_student s).2.students_enrolled = c.students_enrolled ++ [s.person_id]) ∧
    (∀ (c : Course) (s : Student), ¬ c.students_enrolled.length < c.enrollment_limit →
      (c.add_student s).2 = c) := by
  refine ⟨?_, ?_, ?_, ?_⟩
  · intro cid nm cr limit pr ops
    exact (applyRosterOps_inv ops (mkCourse cid nm cr limit pr) (Nat.zero_le _)).1
  · intro c s
    unfold Course.add_student
    by_cases hc : c.students_enrolled.length < c.enrollment_limit
    · rw [if_pos hc]
      simpa using hc
    · rw [if_neg hc]
      simpa using hc
  · intro c s hc
    unfold Course.add_student
    rw [if_pos hc]
  · intro c s hc
    unfold Course.add_student
    rw [if_neg hc]

/-- C2 witness: a course with capacity 2 accepts a first student by
appending to the roster. -/
theorem claim_C2_witness :
    ((mkCourse "CS101" "Intro" 3 2 none).add_student
        (mkStudent "S1" "Ada" "2000-01-01" "CS")).2.students_enrolled =
      (mkCourse "CS101" "Intro" 3 2 none).students_enrolled ++
        [(mkStudent "S1" "Ada" "2000-01-01" "CS").person_id] :=
  claim_C2.2.2.1 (mkCourse "CS101" "Intro" 3 2 none)
    (mkStudent "S1" "Ada" "2000-01-01" "CS") (by decide)

/-- C9: duplicate prerequisite identifiers collapse: a course built from a
list equals one built from the deduplicated list; the concrete list
CS101, CS201, CS101 yields a set of size 2, and no list yields the empty
set. -/
theorem claim_C9 :
    (∀ (cid nm : String) (cr lim : Nat) (l : List String),
      (mkCourse cid nm cr lim (some l)).prerequisites =
        (mkCourse cid nm cr lim (some l.dedup)).prerequisites) ∧
    (mkCourse "CS301" "Algorithms" 3 30
      (some ["CS101", "CS201", "CS101"])).prerequisites.card = 2 ∧
    (∀ (cid nm : String) (cr lim : Nat),
      (mkCourse cid nm cr lim none).prerequisites = ∅) := by
  refine ⟨?_, by decide, fun _ _ _ _ => rfl⟩
  intro cid nm cr lim l
  simp only [mkCourse, pyPrereqSet]
  by_cases hl : l = []
  · subst hl
    rfl
  · have h1 : l.isEmpty = false := by simp [hl]
    have h2 : l.dedup.isEmpty = false := by
      simp [List.isEmpty_iff, List.dedup_eq_nil, hl]
    rw [h1, h2]
    simp only [Bool.false_eq_true, if_false]
    rw [List.toFinset_eq_iff_perm_dedup, List.dedup_idem]

/-- C5: set_gpa raises exactly when the value is outside [0.0, 4.0]; an
accepted write commits the value and changes nothing else; a rejected
write produces only the error, leaving the caller's committed record
untouched; the boundary values 0.0 and 4.0 are accepted; construction
routes initial_gpa through the same setter, so an out-of-range initial
value fails at construction. -/
theorem claim_C5 :
    (∀ (r : SecureStudentRecord) (v : ℚ),
      ((∃ r2, r.set_gpa v = .ok r2) ↔ 0 ≤ v ∧ v ≤ 4) ∧
      (∀ r2, r.set_gpa v = .ok r2 → r2 = { r with gpa := v }) ∧
      (¬ (0 ≤ v ∧ v ≤ 4) →
        r.set_gpa v = .error "GPA must be between 0.0 and 4.0")) ∧
    (∀ r : SecureStudentRecord,
      r.set_gpa 0 = .ok { r with gpa := 0 } ∧
      r.set_gpa 4 = .ok { r with gpa := 4 }) ∧
    (∀ (st : Student) (g : ℚ),
      ((∃ r2, mkSecureStudentRecord st g = .ok r2) ↔ 0 ≤ g ∧ g ≤ 4) ∧
      (∀ r2, mkSecureStudentRecord st g = .ok r2 →
        r2.gpa = g ∧ r2.student = st ∧ r2.enrollment_limit = 5) ∧
      (¬ (0 ≤ g ∧ g ≤ 4) →
        mkSecureStudentRecord st g = .error "GPA must be between 0.0 and 4.0")) := by
  have hset : ∀ (r : SecureStudentRecord) (v : ℚ),
      ((∃ r2, r.set_gpa v = .ok r2) ↔ 0 ≤ v ∧ v ≤ 4) ∧
      (∀ r2, r.set_gpa v = .ok r2 → r2 = { r with gpa := v }) ∧
      (¬ (0 ≤ v ∧ v ≤ 4) →
        r.set_gpa v = .error "GPA must be between 0.0 and 4.0") := by
    intro r v
    unfold SecureStudentRecord.set_gpa
    by_cases h : 0 ≤ v ∧ v ≤ 4
    · rw [if_pos h]
      refine ⟨⟨fun _ => h, fun _ => ⟨_, rfl⟩⟩, ?_, fun hc => absurd h hc⟩
      intro r2 hr2
      exact (Except.ok.inj hr2).symm
    · rw [if_neg h]
      exact ⟨⟨fun ⟨r2, hr2⟩ => absurd hr2 (by simp), fun hc => absurd hc h⟩,
        fun r2 hr2 => absurd hr2 (by simp), fun _ => rfl⟩
  refine ⟨hset, ?_, ?_⟩
  · intro r
    constructor
    · unfold SecureStudentRecord.set_gpa
      rw [if_pos (by norm_num : (0:ℚ) ≤ 0 ∧ (0:ℚ) ≤ 4)]
    · unfold SecureStudentRecord.set_gpa
      rw [if_pos (by norm_num : (0:ℚ) ≤ 4 ∧ (4:ℚ) ≤ 4)]
  · intro st g
    refine ⟨?_, ?_, ?_⟩
    · exact (hset ⟨st, 0, 5⟩ g).1
    · intro r2 hr2
      have := (hset ⟨st, 0, 5⟩ g).2.1 r2 hr2
      rw [this]
      exact ⟨rfl, rfl, rfl⟩
    · exact (hset ⟨st, 0, 5⟩ g).2.2

/-- C5 witness: writing 5.0 into a record holding 2.0 is rejected with
the range error. -/
theorem claim_C5_witness :
    SecureStudentRecord.set_gpa
        ⟨mkStudent "S1" "Ada" "2000-01-01" "CS", 2, 5⟩ 5 =
      .error "GPA must be between 0.0 and 4.0" :=
  (claim_C5.1 ⟨mkStudent "S1" "Ada" "2000-01-01" "CS", 2, 5⟩ 5).2.2 (by norm_num)

/-- C8: can_enroll_more compares the wrapped student's gradeMap size with
the enrollment limit; construction fixes the limit at 5 and the only
mutator, set_gpa, never changes it or the wrapped student. -/
theorem claim_C8 :
    (∀ r : SecureStudentRecord,
      (r.can_enroll_more = true ↔
        r.student.enrolled_courses.length < r.enrollment_limit)) ∧
    (∀ (st : Student) (g : ℚ) (r : SecureStudentRecord),
      mkSecureStudentRecord st g = .ok r →
      r.enrollment_limit = 5 ∧
      (r.can_enroll_more = true ↔ st.enrolled_courses.length < 5)) ∧
    (∀ (r : SecureStudentRecord) (v : ℚ) (r2 : SecureStudentRecord),
      r.set_gpa v = .ok r2 →
      r2.enrollment_limit = r.enrollment_limit ∧ r2.student = r.student) := by
  have hmore : ∀ r : SecureStudentRecord,
      (r.can_enroll_more = true ↔
        r.student.enrolled_courses.length < r.enrollment_limit) := by
    intro r
    unfold SecureStudentRecord.can_enroll_more
    exact decide_eq_true_iff
  have hok : ∀ (r : SecureStudentRecord) (v : ℚ) (r2 : SecureStudentRecord),
      r.set_gpa v = .ok r2 → r2 = { r with gpa := v } := by
    intro r v r2 h
    unfold SecureStudentRecord.set_gpa at h
    by_cases hc : 0 ≤ v ∧ v ≤ 4
    · rw [if_pos hc] at h
      exact (Except.ok.inj h).symm
    · rw [if_neg hc] at h
      exact absurd h (by simp)
  refine ⟨hmore, ?_, ?_⟩
  · intro st g r h
    have h2 := hok ⟨st, 0, 5⟩ g r h
    subst h2
    exact ⟨rfl, hmore _⟩
  · intro r v r2 h
    have h2 := hok r v r2 h
    subst h2
    exact ⟨rfl, rfl⟩

/-- C8 witness: over a student with exactly 5 gradeMap keys the view
reports no further enrollment; with 4 keys it allows one. -/
theorem claim_C8_witness :
    (SecureStudentRecord.can_enroll_more
        ⟨{ mkStudent "S1" "Ada" "2000-01-01" "CS" with
            enrolled_courses :=
              [("C1", none), ("C2", none), ("C3", none), ("C4", none), ("C5", none)] },
          0, 5⟩ = false) ∧
    (SecureStudentRecord.can_enroll_more
        ⟨{ mkStudent "S1" "Ada" "2000-01-01" "CS" with
            enrolled_courses :=
              [("C1", none), ("C2", none), ("C3", none), ("C4", none)] },
          0, 5⟩ = true) := by
  constructor
  · have h := (claim_C8.1
      ⟨{ mkStudent "S1" "Ada" "2000-01-01" "CS" with
          enrolled_courses :=
            [("C1", none), ("C2", none), ("C3", none), ("C4", none), ("C5", none)] },
        0, 5⟩)
    simpa using h
  · exact (claim_C8.1 _).mpr (by decide)

/-- C6: drop_course of a course whose identifier is not a gradeMap key is
a silent no-op on both student and course; when the identifier is a key
it removes the student from the roster and deletes the key whatever the
grade was, leaving every other key untouched; remove_student of a
non-member leaves the roster unchanged. -/
theorem claim_C6 :
    (∀ (s : Student) (c : Course),
      c.course_id ∉ dictKeys s.enrolled_courses → s.drop_course c = (s, c)) ∧
    (∀ (s : Student) (c : Course),
      c.course_id ∈ dictKeys s.enrolled_courses →
      s.drop_course c =
        ({ s with enrolled_courses := dictDelete s.enrolled_courses c.course_id },
         c.remove_student s) ∧
      ((dictKeys s.enrolled_courses).Nodup →
        c.course_id ∉ dictKeys (s.drop_course c).1.enrolled_courses) ∧
      (∀ k2, k2 ≠ c.course_id →
        dictLookup (s.drop_course c).1.enrolled_courses k2 =
          dictLookup s.enrolled_courses k2)) ∧
    (∀ (c : Course) (s : Student),
      s.person_id ∉ c.students_enrolled → c.remove_student s = c) ∧
    (∀ (c : Course) (s : Student),
      s.person_id ∈ c.students_enrolled →
      (c.remove_student s).students_enrolled =
        c.students_enrolled.erase s.person_id) := by
  refine ⟨?_, ?_, ?_, ?_⟩
  · intro s c h
    unfold Student.drop_course
    rw [if_neg h]
  · intro s c h
    have hdrop : s.drop_course c =
        ({ s with enrolled_courses := dictDelete s.enrolled_courses c.course_id },
         c.remove_student s) := by
      unfold Student.drop_course
      rw [if_pos h]
    refine ⟨hdrop, ?_, ?_⟩
    · intro hnd
      rw [hdrop]
      exact not_mem_dictKeys_dictDelete s.enrolled_courses c.course_id hnd
    · intro k2 hk2
      rw [hdrop]
      exact dictLookup_dictDelete_ne s.enrolled_courses c.course_id k2 hk2
  · intro c s h
    unfold Course.remove_student
    rw [if_neg h]
  · intro c s h
    unfold Course.remove_student
    rw [if_pos h]

/-- C6 witness: dropping a never-enrolled course changes nothing. -/
theorem claim_C6_witness :
    (mkStudent "S1" "Ada" "2000-01-01" "CS").drop_course
        (mkCourse "CS101" "Intro" 3 30 none) =
      (mkStudent "S1" "Ada" "2000-01-01" "CS", mkCourse "CS101" "Intro" 3 30 none) :=
  claim_C6.1 (mkStudent "S1" "Ada" "2000-01-01" "CS")
    (mkCourse "CS101" "Intro" 3 30 none) (by decide)

/-- round2 fixes 0. -/
theorem round2_zero : round2 0 = 0 := by
  rw [round2]
  rw [show (0:ℚ) * 100 = ((0:ℤ):ℚ) by norm_num]
  rw [roundHalfEven_intCast]
  norm_num

/-- calculate_gpa, with the lets expanded. -/
theorem calculate_gpa_eq (s : Student) :
    s.calculate_gpa =
      (if (3 : ℚ) * ((gradedPoints s.enrolled_courses).length : ℚ) = 0 then
        (0, { s with gpa := 0 })
      else
        (round2 (((gradedPoints s.enrolled_courses).map (fun p => p * 3)).sum /
            ((3 : ℚ) * ((gradedPoints s.enrolled_courses).length : ℚ))),
         { s with
            gpa := round2 (((gradedPoints s.enrolled_courses).map (fun p => p * 3)).sum /
              ((3 : ℚ) * ((gradedPoints s.enrolled_courses).length : ℚ))) })) := rfl

/-- The truthy-and-in-dict test of the source equals the spec-side
five-letter mapping. -/
theorem truthiness_eq_spec (o : Option String) :
    (match o with
     | none => none
     | some g => if g = "" then none else grade_points g) = specGradePoint o := by
  cases o with
  | none => rfl
  | some g =>
    show (if g = "" then none else grade_points g) = specGradePoint (some g)
    by_cases h0 : g = ""
    · subst h0
      decide
    · by_cases hA : g = "A"
      · subst hA
        decide
      · by_cases hB : g = "B"
        · subst hB
          decide
        · by_cases hC : g = "C"
          · subst hC
            decide
          · by_cases hD : g = "D"
            · subst hD
              decide
            · by_cases hF : g = "F"
              · subst hF
                decide
              · simp [grade_points, specGradePoint, h0, hA, hB, hC, hD, hF]

/-- The counted grade points of the source equal the spec-side ones. -/
theorem gradedPoints_eq_spec (m : List (String × Option String)) :
    gradedPoints m = m.filterMap (fun p => specGradePoint p.2) := by
  unfold gradedPoints
  congr 1
  funext p
  exact truthiness_eq_spec p.2

/-- C3: calculate_gpa refines the spec-side computeGpa (counting exactly
the A-F grades, 3 credits each, 0.0 when nothing counts, else the rounded
quotient), and takes the pinned values on the four spec examples. -/
theorem claim_C3 :
    (∀ s : Student, (s.calculate_gpa).1 = specComputeGpa s.enrolled_courses) ∧
    ({ mkStudent "S1" "Ada" "2000-01-01" "CS" with
        enrolled_courses :=
          [("CS101", some "A"), ("CS201", some "B"), ("CS301", some "C")] } :
      Student).calculate_gpa.1 = 3 ∧
    ({ mkStudent "S1" "Ada" "2000-01-01" "CS" with
        enrolled_courses :=
          [("CS101", some "A"), ("CS201", some "A"), ("MATH101", some "B")] } :
      Student).calculate_gpa.1 = 367/100 ∧
    ({ mkStudent "S1" "Ada" "2000-01-01" "CS" with
        enrolled_courses := [("CS101", some "D"), ("CS201", some "F")] } :
      Student).calculate_gpa.1 = 1/2 ∧
    (mkStudent "S2" "Eve" "2001-05-05" "Math").calculate_gpa.1 = 0 ∧
    ({ mkStudent "S1" "Ada" "2000-01-01" "CS" with
        enrolled_courses := [("CS101", none), ("CS201", none)] } :
      Student).calculate_gpa.1 = 0 := by
  refine ⟨?_, ?_, ?_, ?_, ?_, ?_⟩
  · intro s
    rw [calculate_gpa_eq]
    simp only [specComputeGpa]
    rw [← gradedPoints_eq_spec]
    by_cases hn : (gradedPoints s.enrolled_courses).length = 0
    · rw [if_pos (by rw [hn]; norm_num), if_pos hn]
    · rw [if_neg (by
        intro hc
        rcases mul_eq_zero.mp hc with h3 | hL
        · norm_num at h3
        · exact hn (by exact_mod_cast hL)), if_neg hn]
  · have h : gradedPoints
        [("CS101", some "A"), ("CS201", some "B"), ("CS301", some "C")] = [4, 3, 2] := by
      decide
    norm_num [calculate_gpa_eq, h, round2, roundHalfEven, ratFloor_eq_floor]
  · have h : gradedPoints
        [("CS101", some "A"), ("CS201", some "A"), ("MATH101", some "B")] = [4, 4, 3] := by
      decide
    norm_num [calculate_gpa_eq, h, round2, roundHalfEven, ratFloor_eq_floor]
  · have h : gradedPoints [("CS101", some "D"), ("CS201", some "F")] = [1, 0] := by
      decide
    norm_num [calculate_gpa_eq, h, round2, roundHalfEven, ratFloor_eq_floor]
  · have h : gradedPoints ([] : List (String × Option String)) = [] := by decide
    norm_num [calculate_gpa_eq, mkStudent, h]
  · have h : gradedPoints [("CS101", none), ("CS201", none)] = [] := by decide
    norm_num [calculate_gpa_eq, h]

/-- calculate_gpa stores the returned value in the gpa attribute. -/
theorem calculate_gpa_snd (s : Student) :
    (s.calculate_gpa).2 = { s with gpa := (s.calculate_gpa).1 } := by
  rw [calculate_gpa_eq]
  split <;> rfl

/-- calculate_gpa ignores the cached gpa attribute entirely. -/
theorem calculate_gpa_gpa_irrel (s : Student) (q : ℚ) :
    ({ s with gpa := q } : Student).calculate_gpa = s.calculate_gpa := by
  rw [calculate_gpa_eq, calculate_gpa_eq]

/-- C4: get_academic_status recomputes the GPA from the current gradeMap
(the cached attribute is irrelevant) and classifies it: at least 3.5 is
Dean\x27s List, at least 2.0 is Good Standing, below 2.0 is Probation;
the three spec boundary examples hold. -/
theorem claim_C4 :
    (∀ s : Student,
      (s.get_academic_status).1 =
        (if (s.calculate_gpa).1 ≥ 7/2 then "Dean\x27s List"
         else if (s.calculate_gpa).1 ≥ 2 then "Good Standing"
         else "Probation") ∧
      (s.get_academic_status).2.gpa = (s.calculate_gpa).1 ∧
      (∀ q : ℚ,
        ({ s with gpa := q } : Student).get_academic_status =
          s.get_academic_status)) ∧
    ({ mkStudent "S1" "Ada" "2000-01-01" "CS" with
        enrolled_courses :=
          [("CS101", some "A"), ("CS201", some "B"),
           ("CS301", some "A"), ("CS401", some "B")] } :
      Student).get_academic_status.1 = "Dean\x27s List" ∧
    ({ mkStudent "S1" "Ada" "2000-01-01" "CS" with
        enrolled_courses := [("CS101", some "C")] } :
      Student).get_academic_status.1 = "Good Standing" ∧
    (mkStudent "S2" "Eve" "2001-05-05" "Math").get_academic_status.1 =
      "Probation" := by
  have hsnd : ∀ s : Student, (s.calculate_gpa).2.gpa = (s.calculate_gpa).1 := by
    intro s
    rw [calculate_gpa_snd]
  refine ⟨?_, ?_, ?_, ?_⟩
  · intro s
    refine ⟨?_, ?_, ?_⟩
    · simp only [Student.get_academic_status]
      rw [hsnd]
      split_ifs <;> rfl
    · simp only [Student.get_academic_status]
      rw [hsnd]
      split_ifs <;> rw [hsnd]
    · intro q
      simp only [Student.get_academic_status]
      rw [calculate_gpa_gpa_irrel]
  · have h : gradedPoints
        [("CS101", some "A"), ("CS201", some "B"),
         ("CS301", some "A"), ("CS401", some "B")] = [4, 3, 4, 3] := by
      decide
    norm_num [Student.get_academic_status, calculate_gpa_eq, h, round2,
      roundHalfEven, ratFloor_eq_floor]
  · have h : gradedPoints [("CS101", some "C")] = [2] := by decide
    norm_num [Student.get_academic_status, calculate_gpa_eq, h, round2,
      roundHalfEven, ratFloor_eq_floor]
  · have h : gradedPoints ([] : List (String × Option String)) = [] := by decide
    norm_num [Student.get_academic_status, calculate_gpa_eq, mkStudent, h]

/-- C7: the value calculate_gpa returns is within [0.0, 4.0], is a fixed
point of rounding to 2 decimal places, and is what is stored in the gpa
attribute. -/
theorem claim_C7 (s : Student) :
    0 ≤ (s.calculate_gpa).1 ∧ (s.calculate_gpa).1 ≤ 4 ∧
    round2 ((s.calculate_gpa).1) = (s.calculate_gpa).1 ∧
    (s.calculate_gpa).2.gpa = (s.calculate_gpa).1 := by
  have hb := sum_bounds_of_mem (gradedPoints s.enrolled_courses)
    (gradedPoints_mem_bounds s.enrolled_courses)
  rw [calculate_gpa_eq]
  split
  next h => exact ⟨le_refl 0, by norm_num, round2_zero, rfl⟩
  next h =>
    have hlen : (0:ℚ) < 3 * ((gradedPoints s.enrolled_courses).length : ℚ) := by
      rcases Nat.eq_zero_or_pos (gradedPoints s.enrolled_courses).length with h0 | h0
      · exact absurd (by rw [h0]; norm_num) h
      · have : (0:ℚ) < ((gradedPoints s.enrolled_courses).length : ℚ) := by
          exact_mod_cast h0
        linarith
    have hsum3 : ((gradedPoints s.enrolled_courses).map (fun p => p * 3)).sum =
        (gradedPoints s.enrolled_courses).sum * 3 := by
      have := List.sum_map_mul_right (gradedPoints s.enrolled_courses) id 3
      simpa using this
    have hq0 : 0 ≤ ((gradedPoints s.enrolled_courses).map (fun p => p * 3)).sum /
        (3 * ((gradedPoints s.enrolled_courses).length : ℚ)) := by
      apply div_nonneg _ hlen.le
      rw [hsum3]
      have := hb.1
      linarith
    have hq4 : ((gradedPoints s.enrolled_courses).map (fun p => p * 3)).sum /
        (3 * ((gradedPoints s.enrolled_courses).length : ℚ)) ≤ 4 := by
      rw [div_le_iff₀ hlen, hsum3]
      have := hb.2
      linarith
    exact ⟨round2_nonneg hq0, round2_le_four hq4, round2_round2 _, rfl⟩

/-- C10 as amended: when the gradeMap already holds the course identifier
AND the prerequisites are satisfied AND the roster has room, re-enrolling
succeeds, appends the student to the roster again, overwrites the stored
grade with None and leaves the key set unchanged. -/
theorem claim_C10 (s : Student) (c : Course) (d : Department)
    (hmem : c.course_id ∈ dictKeys s.enrolled_courses)
    (hsub : c.prerequisites ⊆ (dictKeys s.enrolled_courses).toFinset)
    (hroom : c.students_enrolled.length < c.enrollment_limit) :
    (s.enroll_course c d).1 = .success ∧
    (s.enroll_course c d).2.2.students_enrolled =
      c.students_enrolled ++ [s.person_id] ∧
    dictLookup (s.enroll_course c d).2.1.enrolled_courses c.course_id =
      some none ∧
    dictKeys (s.enroll_course c d).2.1.enrolled_courses =
      dictKeys s.enrolled_courses := by
  rw [enroll_course_success s c d hsub hroom]
  exact ⟨rfl, rfl, dictLookup_dictInsert_self _ _ _,
    dictKeys_dictInsert_mem _ _ _ hmem⟩

/-- C10 counterexample: the claim as stated is false: holding the course
identifier in the gradeMap does not make the prerequisite check pass.
A student holding only CS201 (graded A) re-enrolls in CS201, which
requires CS101: the check reports the missing CS101 even though the
roster has room, so the enrollment does not succeed. -/
theorem claim_C10_counterexample :
    "CS201" ∈ dictKeys
      ((⟨"S1", "Bob", "2000-01-01", "CS", [("CS201", some "A")], 0⟩ :
        Student)).enrolled_courses ∧
    (mkCourse "CS201" "Programming II" 3 30
        (some ["CS101"])).students_enrolled.length <
      (mkCourse "CS201" "Programming II" 3 30
        (some ["CS101"])).enrollment_limit ∧
    ((⟨"S1", "Bob", "2000-01-01", "CS", [("CS201", some "A")], 0⟩ :
        Student).enroll_course
      (mkCourse "CS201" "Programming II" 3 30 (some ["CS101"]))
      ⟨"CS", [], []⟩).1 = .missingPrereqs {"CS101"} := by
  decide

/-- C10 witness: a student already holding CS201 with grade A and already
on the roster re-enrolls in a prerequisite-free CS201 with room: the
roster gains a duplicate entry and the grade is reset to None. -/
theorem claim_C10_witness :
    ((⟨"S1", "Bob", "2000-01-01", "CS", [("CS201", some "A")], 0⟩ :
        Student).enroll_course
      (⟨"CS201", "Programming II", 3, 30, ∅, ["S1"]⟩ : Course)
      ⟨"CS", [], []⟩).1 = .success ∧
    ((⟨"S1", "Bob", "2000-01-01", "CS", [("CS201", some "A")], 0⟩ :
        Student).enroll_course
      (⟨"CS201", "Programming II", 3, 30, ∅, ["S1"]⟩ : Course)
      ⟨"CS", [], []⟩).2.2.students_enrolled = ["S1"] ++ ["S1"] ∧
    dictLookup ((⟨"S1", "Bob", "2000-01-01", "CS", [("CS201", some "A")], 0⟩ :
        Student).enroll_course
      (⟨"CS201", "Programming II", 3, 30, ∅, ["S1"]⟩ : Course)
      ⟨"CS", [], []⟩).2.1.enrolled_courses "CS201" = some none ∧
    dictKeys ((⟨"S1", "Bob", "2000-01-01", "CS", [("CS201", some "A")], 0⟩ :
        Student).enroll_course
      (⟨"CS201", "Programming II", 3, 30, ∅, ["S1"]⟩ : Course)
      ⟨"CS", [], []⟩).2.1.enrolled_courses =
      dictKeys [("CS201", some "A")] :=
  claim_C10
    (⟨"S1", "Bob", "2000-01-01", "CS", [("CS201", some "A")], 0⟩ : Student)
    (⟨"CS201", "Programming II", 3, 30, ∅, ["S1"]⟩ : Course)
    ⟨"CS", [], []⟩ (by decide) (by decide) (by decide)

end UniSys
